import Mathlib

/-!
Verification development for the translator mobile app's caching and
offline-data layer.

The definitions below are a shallow embedding of the JavaScript source:

* `src/utils/cacheUtils.js` — a TTL (time-to-live) cache over the
  persistent key/value backing store (`AsyncStorage`);
* `src/services/offlineService.js` — the offline language-pack manager
  (pack install/delete, availability checks, offline phrase translation);
* the translation-routing function `translateText`
  (`src/services/translationService.js` and its divergent sibling in the
  source tree), which decides between the offline and online paths.

Asynchrony in the source is sequential awaiting with no interleaving, so
every operation is embedded as a pure function from explicit state
(backing store, installed-pack list, connectivity and flag inputs) to a
result plus the updated state.
-/

/-- JavaScript `String.prototype.toLowerCase()`, over the character
list of the string. -/
def jsToLower (s : String) : String :=
  String.mk (s.data.map Char.toLower)

/-- JavaScript `String.prototype.toUpperCase()`, over the character
list of the string. -/
def jsToUpper (s : String) : String :=
  String.mk (s.data.map Char.toUpper)

/-- JavaScript `String.prototype.trim()`: strip leading and trailing
whitespace. -/
def jsTrim (s : String) : String :=
  String.mk
    (((s.data.dropWhile Char.isWhitespace).reverse.dropWhile
      Char.isWhitespace).reverse)

/-- JavaScript `String.prototype.startsWith(p)`, over the character
lists. -/
def jsStartsWith (s p : String) : Bool :=
  p.data.isPrefixOf s.data

/-- A JavaScript runtime value, as far as the cached payloads are
concerned.  The cache treats the payload opaquely except for its
truthiness, so objects and arrays are represented by an opaque
identifier (they are always truthy). -/
inductive JVal where
  | null
  | bool (b : Bool)
  | num (n : Int)
  | str (s : String)
  | obj (id : Nat)
deriving DecidableEq, Repr

/-- JavaScript truthiness of a `JVal`: `null`, `false`, `0` and the
empty string are falsy; every other modelled value is truthy. -/
def JVal.truthy : JVal → Bool
  | .null => false
  | .bool b => b
  | .num n => n != 0
  | .str s => s != ""
  | .obj _ => true

/-- A raw string stored in the backing store, classified by how
`JSON.parse` plus the destructuring `const { data, timestamp, ttl } = ...`
in `getCachedData` sees it: either it deserializes to a cache record
`{data, timestamp, ttl}` (constructor `entry`), or deserialization
fails / the string is not such a record (constructor `corrupt`, holding
the raw text).  Non-cache values in the shared store (settings, flags,
...) are carried by `corrupt` as opaque raw strings. -/
inductive CEnc where
  | entry (data : JVal) (timestamp : Int) (ttl : Int)
  | corrupt (raw : String)
deriving DecidableEq, Repr

/-- The persistent key/value backing store (`AsyncStorage`): an
association list from string keys to stored values, first match wins,
keys kept unique by `storeSet`. -/
abbrev Store := List (String × CEnc)

/-- Embedding of `AsyncStorage.getItem`: the value at `k`, or `none` when absent. -/
def storeGet (s : Store) (k : String) : Option CEnc :=
  match s with
  | [] => none
  | (k', v) :: rest => if k' = k then some v else storeGet rest k

/-- Embedding of `AsyncStorage.setItem`: overwrite the value at `k`, appending when
absent. -/
def storeSet (s : Store) (k : String) (v : CEnc) : Store :=
  match s with
  | [] => [(k, v)]
  | (k', v') :: rest =>
      if k' = k then (k, v) :: rest else (k', v') :: storeSet rest k v

/-- Embedding of `AsyncStorage.removeItem`: delete the entry at `k` (no-op when
absent). -/
def storeRemove (s : Store) (k : String) : Store :=
  s.filter (fun kv => kv.1 != k)

/-- Embedding of `AsyncStorage.getAllKeys`. -/
def getAllKeys (s : Store) : List String :=
  s.map (fun kv => kv.1)

/-- Embedding of `AsyncStorage.multiRemove`: delete every entry whose key is in
`ks`. -/
def multiRemove (s : Store) (ks : List String) : Store :=
  s.filter (fun kv => !(ks.contains kv.1))

/-- Embedding of `CACHE_PREFIX` from `cacheUtils.js`. -/
def cachePrefixStr : String := "translator_cache_"

/-- Embedding of `DEFAULT_TTL` from `cacheUtils.js`: one hour in milliseconds. -/
def DEFAULT_TTL : Int := 60 * 60 * 1000

/-- Embedding of `getCachedData(key)` from `cacheUtils.js`, with the current clock
`now` (`Date.now()`) and the backing store passed explicitly.  Returns
the cached payload (or `none` on miss) together with the store after the
read.  An absent raw value returns a miss; a raw value that fails to
deserialize is caught by the surrounding `try`/`catch`, which logs and
returns `null` without touching the store; a deserialized entry is
returned iff `now - timestamp > ttl` fails, and is removed from the
store when that expiry test succeeds. -/
def getCachedData (now : Int) (s : Store) (key : String) :
    Option JVal × Store :=
  let cacheKey := cachePrefixStr ++ key
  match storeGet s cacheKey with
  | none => (none, s)
  | some (.corrupt _) => (none, s)
  | some (.entry data timestamp ttl) =>
      if now - timestamp > ttl then
        (none, storeRemove s cacheKey)
      else
        (some data, s)

/-- Embedding of `cacheData(key, data, ttl)` from `cacheUtils.js`: serialize
`{data, timestamp: Date.now(), ttl}` and write it under the prefixed
key, overwriting any prior entry.  Returns the updated store and the
`true` result of the successful write. -/
def cacheData (now : Int) (s : Store) (key : String) (data : JVal)
    (ttl : Int) : Store × Bool :=
  let cacheKey := cachePrefixStr ++ key
  (storeSet s cacheKey (.entry data now ttl), true)

/-- Embedding of `clearCache(key)` from `cacheUtils.js`: remove one entry;
idempotent. -/
def clearCache (s : Store) (key : String) : Store × Bool :=
  (storeRemove s (cachePrefixStr ++ key), true)

/-- Embedding of `clearAllCache()` from `cacheUtils.js`: list all keys, keep those
starting with the cache prefix, and `multiRemove` them (the
`cacheKeys.length > 0` guard in the source only skips a no-op call). -/
def clearAllCache (s : Store) : Store :=
  let allKeys := getAllKeys s
  let cacheKeys := allKeys.filter (fun k => jsStartsWith k cachePrefixStr)
  multiRemove s cacheKeys

/-- Outcome of one `fetchWithCache` call: the value returned to the
caller (or the propagated error message), the backing store afterwards,
and whether the underlying `fetch` was invoked. -/
structure FetchOutcome where
  result : Except String JVal
  store : Store
  fetched : Bool

/-- Embedding of `fetchWithCache(url, options, cacheKey, ttl)` from `cacheUtils.js`.
The network is modelled by `fetchRes`: what the `fetch`/`response.ok`
check/`response.json()` sequence would produce if it ran (`Except.error`
covers a rejected fetch, a non-ok status and a JSON failure alike).
The source resolves the key as `cacheKey || url` (a falsy `cacheKey`,
i.e. absent or the empty string, falls back to `url`), then returns the
cached data when `getCachedData` yields a truthy value, and otherwise
fetches, caches the fetched data on success, and rethrows on failure. -/
def fetchWithCache (now : Int) (s : Store) (url : String)
    (cacheKey : Option String) (ttl : Int) (fetchRes : Except String JVal) :
    FetchOutcome :=
  let key := match cacheKey with
    | some k => if k = "" then url else k
    | none => url
  let pair := getCachedData now s key
  match pair.1 with
  | some cachedData =>
      if cachedData.truthy then
        ⟨.ok cachedData, pair.2, false⟩
      else
        match fetchRes with
        | .error e => ⟨.error e, pair.2, true⟩
        | .ok data => ⟨.ok data, (cacheData now pair.2 key data ttl).1, true⟩
  | none =>
      match fetchRes with
      | .error e => ⟨.error e, pair.2, true⟩
      | .ok data => ⟨.ok data, (cacheData now pair.2 key data ttl).1, true⟩

/-- One installed language-pack metadata record, as stored in the
`translator_downloaded_languages` list by `offlineService.js`. -/
structure PackRecord where
  code : String
  name : String
  quality : String
  features : List String
  size : Nat
  downloaded : Nat
deriving DecidableEq, Repr

/-- Embedding of `LANGUAGE_PACK_SIZES` from `offlineService.js`: size in MB and
feature list per quality tier; `none` for a quality that is not a key of
the table (in the source, indexing with such a quality throws, and the
`catch` rethrows). -/
def LANGUAGE_PACK_SIZES (quality : String) : Option (Nat × List String) :=
  if quality = "basic" then
    some (5, ["text-only", "common-phrases"])
  else if quality = "standard" then
    some (15, ["text", "speech-recognition", "basic-ocr"])
  else if quality = "premium" then
    some (30, ["text", "speech-recognition", "advanced-ocr", "context-aware"])
  else
    none

/-- Embedding of `isOfflineModeEnabled()` from `offlineService.js`: the persisted
flag string compared to the literal string `"true"`; an absent value
yields `false`. -/
def isOfflineModeEnabled (stored : Option String) : Bool :=
  stored == some "true"

/-- Embedding of `getDownloadedLanguages()` from `offlineService.js`: the parsed
stored list, or `[]` when the key is absent. -/
def getDownloadedLanguages (stored : Option (List PackRecord)) :
    List PackRecord :=
  stored.getD []

/-- Embedding of `isLanguageDownloaded(code)` from `offlineService.js`:
`languages.some(lang => lang.code === languageCode)`. -/
def isLanguageDownloaded (languages : List PackRecord)
    (languageCode : String) : Bool :=
  languages.any (fun lang => lang.code == languageCode)

/-- The error thrown by `downloadLanguagePack`: the
insufficient-storage `Error` carries the required tier size in MB and
`Math.floor` of the available MB (the two numbers interpolated into its
message); `invalidQuality` is the `TypeError` from indexing
`LANGUAGE_PACK_SIZES` with an unknown quality. -/
inductive DlError where
  | insufficientStorage (requiredMB : Nat) (availableMB : Int)
  | invalidQuality
deriving DecidableEq, Repr

/-- Embedding of `downloadLanguagePack(languageCode, languageName, quality)` from
`offlineService.js`, with the device free space in bytes and the clock
passed explicitly, acting on the parsed installed-pack list.  Checks the
storage precondition `freeSizeInMB < requiredSize` before any write;
on success filters out any prior record for the same code and appends
the fresh record tagged with the tier's features and size. -/
def downloadLanguagePack (freeSizeInBytes : Nat) (now : Nat)
    (installed : List PackRecord)
    (languageCode languageName quality : String) :
    Except DlError (List PackRecord) :=
  match LANGUAGE_PACK_SIZES quality with
  | none => .error .invalidQuality
  | some (requiredSize, feats) =>
      let freeSizeInMB : ℚ := (freeSizeInBytes : ℚ) / (1024 * 1024)
      if freeSizeInMB < (requiredSize : ℚ) then
        .error (.insufficientStorage requiredSize (Rat.floor freeSizeInMB))
      else
        .ok ((installed.filter (fun lang => lang.code != languageCode)) ++
          [{ code := languageCode, name := languageName, quality := quality,
             features := feats, size := requiredSize, downloaded := now }])

/-- The installed-pack list actually persisted after a
`downloadLanguagePack` call: the updated list on success, and the
unchanged prior list when the call throws (the source only writes
`AsyncStorage` after every check has passed). -/
def applyDownload (freeSizeInBytes now : Nat) (installed : List PackRecord)
    (languageCode languageName quality : String) : List PackRecord :=
  match downloadLanguagePack freeSizeInBytes now installed
      languageCode languageName quality with
  | .ok updated => updated
  | .error _ => installed

/-- Embedding of `deleteLanguagePack(languageCode)` from `offlineService.js`,
restricted to the installed-pack list it persists: every record for the
code is filtered out (the pack blob file is deleted alongside; the blob
is not part of this list). -/
def deleteLanguagePack (installed : List PackRecord)
    (languageCode : String) : List PackRecord :=
  installed.filter (fun lang => lang.code != languageCode)

/-- One phrase of a language pack: `{id, text}`. -/
structure Phrase where
  id : String
  text : String
deriving DecidableEq, Repr

/-- The parsed content of a pack blob file, as far as
`translateTextOffline` reads it: its phrase table. -/
structure PackData where
  phrases : List Phrase
deriving DecidableEq, Repr

/-- The phrase-lookup loop of `translateTextOffline`: walk the source
pack's phrases; at the first phrase whose lower-cased text equals the
normalized input, look up the same id in the target pack and return its
text when found — when the id is absent from the target pack the loop
simply continues with the next source phrase. -/
def lookupPhrase (textLower : String) (src tgt : List Phrase) :
    Option String :=
  match src with
  | [] => none
  | p :: rest =>
      if jsToLower p.text = textLower then
        match tgt.find? (fun q => q.id == p.id) with
        | some targetPhrase => some targetPhrase.text
        | none => lookupPhrase textLower rest tgt
      else
        lookupPhrase textLower rest tgt

/-- A value returned by `translateTextOffline` (and by `translateText`'s
offline branch): either a plain string — a real target-pack phrase or
the bracketed offline placeholder — or the structured message object
`{translatedText, sourceLanguage, targetLanguage, isOfflineMessage}`. -/
inductive TransResult where
  | str (s : String)
  | msg (translatedText : String) (sourceLanguage targetLanguage : String)
      (isOfflineMessage : Bool)
deriving DecidableEq, Repr

/-- Embedding of `translateTextOffline(text, sourceLanguage, targetLanguage)` from
`offlineService.js`.  `installed` is the parsed installed-pack list and
`files code` the parsed pack blob for `code` (`none` when reading or
parsing the blob file throws, which the inner `catch` converts to the
structured error message).  When either pack is missing the structured
unavailable message is returned; otherwise the normalized text
(`text.toLowerCase().trim()`) is looked up, a hit returns the target
phrase text as a plain string, and a miss returns the bracketed
placeholder string. -/
def translateTextOffline (installed : List PackRecord)
    (files : String → Option PackData)
    (text sourceLanguage targetLanguage : String) : TransResult :=
  let isSourceDownloaded := isLanguageDownloaded installed sourceLanguage
  let isTargetDownloaded := isLanguageDownloaded installed targetLanguage
  if !isSourceDownloaded || !isTargetDownloaded then
    .msg "Translation unavailable. Language packs not completely downloaded."
      sourceLanguage targetLanguage true
  else
    match files sourceLanguage, files targetLanguage with
    | some sourceData, some targetData =>
        let textLower := jsTrim (jsToLower text)
        match lookupPhrase textLower sourceData.phrases targetData.phrases with
        | some t => .str t
        | none =>
            .str ("[Offline " ++ jsToUpper targetLanguage ++ " Translation] "
              ++ text)
    | _, _ =>
        .msg "Error accessing offline translation data. Try reinstalling language packs."
          sourceLanguage targetLanguage true

/-- Embedding of `generateMockPhrases(languageCode)` from `offlineService.js`: the
fixed phrase table per language, with English as the fallback for any
other code. -/
def generateMockPhrases (languageCode : String) : List Phrase :=
  if languageCode = "en" then
    [⟨"greeting", "Hello"⟩, ⟨"thanks", "Thank you"⟩, ⟨"goodbye", "Goodbye"⟩,
     ⟨"help", "I need help"⟩, ⟨"yes", "Yes"⟩, ⟨"no", "No"⟩]
  else if languageCode = "es" then
    [⟨"greeting", "Hola"⟩, ⟨"thanks", "Gracias"⟩, ⟨"goodbye", "Adiós"⟩,
     ⟨"help", "Necesito ayuda"⟩, ⟨"yes", "Sí"⟩, ⟨"no", "No"⟩]
  else if languageCode = "fr" then
    [⟨"greeting", "Bonjour"⟩, ⟨"thanks", "Merci"⟩, ⟨"goodbye", "Au revoir"⟩,
     ⟨"help", "J\x27ai besoin d\x27aide"⟩, ⟨"yes", "Oui"⟩, ⟨"no", "Non"⟩]
  else if languageCode = "de" then
    [⟨"greeting", "Hallo"⟩, ⟨"thanks", "Danke"⟩, ⟨"goodbye", "Auf Wiedersehen"⟩,
     ⟨"help", "Ich brauche Hilfe"⟩, ⟨"yes", "Ja"⟩, ⟨"no", "Nein"⟩]
  else if languageCode = "it" then
    [⟨"greeting", "Ciao"⟩, ⟨"thanks", "Grazie"⟩, ⟨"goodbye", "Arrivederci"⟩,
     ⟨"help", "Ho bisogno di aiuto"⟩, ⟨"yes", "Sì"⟩, ⟨"no", "No"⟩]
  else if languageCode = "ja" then
    [⟨"greeting", "こんにちは"⟩, ⟨"thanks", "ありがとう"⟩, ⟨"goodbye", "さようなら"⟩,
     ⟨"help", "助けが必要です"⟩, ⟨"yes", "はい"⟩, ⟨"no", "いいえ"⟩]
  else if languageCode = "zh" then
    [⟨"greeting", "你好"⟩, ⟨"thanks", "谢谢"⟩, ⟨"goodbye", "再见"⟩,
     ⟨"help", "我需要帮助"⟩, ⟨"yes", "是"⟩, ⟨"no", "否"⟩]
  else
    [⟨"greeting", "Hello"⟩, ⟨"thanks", "Thank you"⟩, ⟨"goodbye", "Goodbye"⟩,
     ⟨"help", "I need help"⟩, ⟨"yes", "Yes"⟩, ⟨"no", "No"⟩]

/-- Where a `translateText` call ends up: the offline translation's
result, a thrown error, or the online translation path (whose mock
phrase tables are outside the routing contract being verified and are
therefore represented by the bare `online` outcome). -/
inductive RouteOutcome where
  | offline (r : TransResult)
  | thrown (message : String)
  | online
deriving DecidableEq, Repr

/-- The routing prefix of `translateText(text, sourceLang, targetLang)`
in the fall-through variant of the translation-routing source (the
variant the specification designates as the contract).  The connectivity
signal is `netInfo.isConnected && netInfo.isInternetReachable`; the
offline-mode flag is read through `isOfflineModeEnabled`.  When the flag
is set or the device is disconnected, the offline branch is entered:
with both packs installed it returns `translateTextOffline`'s result;
with a pack missing it throws when disconnected and otherwise falls
through to the online path.  Outside that branch it proceeds online. -/
def translateText (isConnectedSignal isInternetReachable : Bool)
    (offlineFlagStored : Option String) (installed : List PackRecord)
    (files : String → Option PackData)
    (text sourceLang targetLang : String) : RouteOutcome :=
  let isConnected := isConnectedSignal && isInternetReachable
  let offlineMode := isOfflineModeEnabled offlineFlagStored
  if offlineMode || !isConnected then
    let sourceDownloaded := isLanguageDownloaded installed sourceLang
    let targetDownloaded := isLanguageDownloaded installed targetLang
    if sourceDownloaded && targetDownloaded then
      .offline (translateTextOffline installed files text sourceLang targetLang)
    else if !isConnected then
      .thrown "No internet connection and required language packs not downloaded"
    else
      .online
  else
    .online

/-- One operation on the installed-pack collection: a
`downloadLanguagePack` call (with the free space and clock it observes)
or a `deleteLanguagePack` call. -/
inductive PackOp where
  | download (freeSizeInBytes now : Nat) (code name quality : String)
  | delete (code : String)
deriving DecidableEq, Repr

/-- The installed-pack list after one operation (a failed download
leaves the list unchanged, see `applyDownload`). -/
def applyPackOp (installed : List PackRecord) : PackOp → List PackRecord
  | .download freeSizeInBytes now code name quality =>
      applyDownload freeSizeInBytes now installed code name quality
  | .delete code => deleteLanguagePack installed code

/-- The installed-pack list after a sequence of operations, starting
from the empty collection a fresh install begins with. -/
def runPackOps (ops : List PackOp) : List PackRecord :=
  ops.foldl applyPackOp []

/-- How many installed records carry the given language code. -/
def countCode (installed : List PackRecord) (code : String) : Nat :=
  (installed.filter (fun lang => lang.code == code)).length

theorem storeGet_storeRemove_self (s : Store) (k : String) :
    storeGet (storeRemove s k) k = none := by
  induction s with
  | nil => rfl
  | cons kv rest ih =>
      cases kv with
      | mk k' v' =>
          simp only [storeRemove, List.filter_cons]
          by_cases h : k' = k
          · simp [h, storeRemove] at ih ⊢
            exact ih
          · simp only [bne_iff_ne, ne_eq, h, not_false_eq_true, if_pos, decide_not]
            by_cases hd : (k' == k)
            · exact absurd (by simpa using hd) h
            · simp only [Bool.not_eq_true] at hd
              simp only [hd, Bool.not_false, if_true, storeGet, if_neg h]
              simpa [storeRemove] using ih

theorem storeGet_storeSet_self (s : Store) (k : String) (v : CEnc) :
    storeGet (storeSet s k v) k = some v := by
  induction s with
  | nil => simp [storeSet, storeGet]
  | cons kv rest ih =>
      cases kv with
      | mk k' v' =>
          by_cases h : k' = k
          · simp [storeSet, storeGet, h]
          · simp [storeSet, storeGet, h, ih]

theorem storeGet_eq_none_of_not_mem_getAllKeys (s : Store) (k : String)
    (h : k ∉ getAllKeys s) : storeGet s k = none := by
  induction s with
  | nil => rfl
  | cons kv rest ih =>
      cases kv with
      | mk k' v' =>
          simp only [getAllKeys, List.map_cons] at h
          have h1 : k' ≠ k := fun e => h (e ▸ List.mem_cons_self _ _)
          have h2 : k ∉ getAllKeys rest := fun m =>
            h (List.mem_cons_of_mem _ (by simpa [getAllKeys] using m))
          simp only [storeGet, if_neg h1]
          exact ih h2

theorem storeGet_multiRemove (s : Store) (ks : List String) (k : String) :
    storeGet (multiRemove s ks) k = if k ∈ ks then none else storeGet s k := by
  induction s with
  | nil => simp [multiRemove, storeGet]
  | cons kv rest ih =>
      cases kv with
      | mk k' v' =>
          simp only [multiRemove, List.filter_cons] at ih ⊢
          by_cases hmem : k' ∈ ks
          · rw [if_neg (by simp [List.elem_iff, hmem])]
            by_cases hk : k ∈ ks
            · simpa [hk] using ih
            · have hne : k' ≠ k := fun e => hk (e ▸ hmem)
              rw [if_neg hk] at ih ⊢
              simpa [storeGet, hne] using ih
          · rw [if_pos (by simp [List.elem_iff, hmem])]
            by_cases hk : k ∈ ks
            · have hne : k' ≠ k := fun e => hmem (e.symm ▸ hk)
              rw [if_pos hk] at ih ⊢
              simpa [storeGet, hne] using ih
            · rw [if_neg hk] at ih ⊢
              by_cases he : k' = k
              · simp [storeGet, he]
              · simpa [storeGet, he] using ih

theorem storeGet_clearAllCache_aux (s : Store) (k : String) :
    storeGet (clearAllCache s) k
      = if jsStartsWith k cachePrefixStr = true then none else storeGet s k := by
  simp only [clearAllCache, storeGet_multiRemove]
  by_cases hp : jsStartsWith k cachePrefixStr = true
  · rw [if_pos hp]
    by_cases hm : k ∈ getAllKeys s
    · rw [if_pos (by simp [List.mem_filter, hm, hp])]
    · rw [if_neg (by simp [List.mem_filter]; intro h; exact absurd h hm)]
      exact storeGet_eq_none_of_not_mem_getAllKeys s k hm
  · rw [if_neg hp,
      if_neg (by simp only [List.mem_filter, not_and]; intro _; simpa using hp)]

/-- Claim C1: TTL cache get/put correctness — for a key holding a
stored entry `{data, timestamp, ttl}`, `getCachedData` returns the
stored data iff `now - timestamp ≤ ttl` at read time; when
`now - timestamp > ttl` it returns a miss (`none`) and the
backing-store entry for the key is deleted, so an expired entry is
never returned and does not survive the read. -/
theorem C1_ttl_get_put_correct (now timestamp ttl : Int) (s : Store)
    (key : String) (data : JVal)
    (hstored : storeGet s (cachePrefixStr ++ key)
      = some (.entry data timestamp ttl)) :
    ((getCachedData now s key).1 = some data ↔ now - timestamp ≤ ttl) ∧
    (now - timestamp ≤ ttl → getCachedData now s key = (some data, s)) ∧
    (now - timestamp > ttl →
      getCachedData now s key = (none, storeRemove s (cachePrefixStr ++ key)) ∧
      storeGet (getCachedData now s key).2 (cachePrefixStr ++ key) = none) := by
  have hvalid : now - timestamp ≤ ttl → getCachedData now s key = (some data, s) := by
    intro h
    simp only [getCachedData, hstored]
    rw [if_neg (by omega)]
  have hexp : now - timestamp > ttl →
      getCachedData now s key = (none, storeRemove s (cachePrefixStr ++ key)) := by
    intro h
    simp only [getCachedData, hstored]
    rw [if_pos h]
  refine ⟨?_, hvalid, fun h => ⟨hexp h, ?_⟩⟩
  · by_cases h : now - timestamp ≤ ttl
    · simp [hvalid h, h]
    · rw [hexp (by omega)]
      simp only [Prod.fst]
      constructor
      · intro e; exact absurd e (by simp)
      · intro e; exact absurd e h
  · rw [hexp h]
    exact storeGet_storeRemove_self s (cachePrefixStr ++ key)

/-- Witness for C1 at a concrete store: an unexpired entry is returned
with the store untouched, and an expired one is removed. -/
theorem C1_witness :
    getCachedData 5 [("translator_cache_k", CEnc.entry (JVal.str "v") 0 10)] "k"
      = (some (JVal.str "v"),
         [("translator_cache_k", CEnc.entry (JVal.str "v") 0 10)]) ∧
    getCachedData 11 [("translator_cache_k", CEnc.entry (JVal.str "v") 0 10)] "k"
      = (none, []) :=
  ⟨(C1_ttl_get_put_correct 5 0 10
      [("translator_cache_k", CEnc.entry (JVal.str "v") 0 10)] "k" (JVal.str "v")
      (by decide)).2.1 (by decide),
   by
    have h := ((C1_ttl_get_put_correct 11 0 10
      [("translator_cache_k", CEnc.entry (JVal.str "v") 0 10)] "k" (JVal.str "v")
      (by decide)).2.2 (by decide)).1
    rw [h]
    decide⟩

/-- Claim C4, counterexample: a corrupt backing-store value makes
`getCachedData` return a miss, but — contrary to the claim — the
corrupt entry is NOT deleted: it is still present in the store after
the read. -/
theorem C4_counterexample :
    (getCachedData 0 [("translator_cache_k", CEnc.corrupt "not json")] "k").1
      = none ∧
    storeGet
      (getCachedData 0 [("translator_cache_k", CEnc.corrupt "not json")] "k").2
      ("translator_cache_" ++ "k") = some (CEnc.corrupt "not json") := by
  decide

/-- Claim C4 as amended: for every key whose backing-store value fails
to deserialize, `getCachedData` returns a miss without throwing to the
caller, and the backing store is left entirely unchanged — the corrupt
entry is not evicted (the `catch` only logs and returns `null`). -/
theorem C4_corrupt_miss_no_eviction (now : Int) (s : Store) (key raw : String)
    (hstored : storeGet s (cachePrefixStr ++ key) = some (.corrupt raw)) :
    getCachedData now s key = (none, s) := by
  simp only [getCachedData, hstored]

/-- Witness for the amended C4 at a concrete corrupt store. -/
theorem C4_witness :
    getCachedData 0 [("translator_cache_j", CEnc.corrupt "oops")] "j"
      = (none, [("translator_cache_j", CEnc.corrupt "oops")]) :=
  C4_corrupt_miss_no_eviction 0 [("translator_cache_j", CEnc.corrupt "oops")]
    "j" "oops" (by decide)

/-- Claim C8: namespace isolation of bulk invalidation — for every
backing-store state, `clearAllCache` deletes exactly the keys starting
with the cache prefix; a key without the prefix keeps exactly the value
it had before. -/
theorem C8_clearAllCache_namespace_isolation (s : Store) (k : String) :
    storeGet (clearAllCache s) k
      = if jsStartsWith k cachePrefixStr = true then none else storeGet s k :=
  storeGet_clearAllCache_aux s k

/-- Claim C2: routing contract of `translateText` — whenever the
persisted offline-mode flag is set or no connectivity is reported, the
offline branch is taken: with both packs installed the call returns the
offline translation; with a pack missing it reaches the online path
exactly when connectivity exists (falling through rather than failing),
and conversely the only way the offline-preferred branch ends online is
a missing pack together with connectivity. -/
theorem C2_routing_contract (isConnectedSignal isInternetReachable : Bool)
    (offlineFlagStored : Option String) (installed : List PackRecord)
    (files : String → Option PackData) (text sourceLang targetLang : String) :
    ((isOfflineModeEnabled offlineFlagStored
        || !(isConnectedSignal && isInternetReachable)) = true →
      (isLanguageDownloaded installed sourceLang
        && isLanguageDownloaded installed targetLang) = true →
      translateText isConnectedSignal isInternetReachable offlineFlagStored
          installed files text sourceLang targetLang
        = .offline (translateTextOffline installed files text sourceLang
            targetLang)) ∧
    ((isOfflineModeEnabled offlineFlagStored
        || !(isConnectedSignal && isInternetReachable)) = true →
      (isLanguageDownloaded installed sourceLang
        && isLanguageDownloaded installed targetLang) = false →
      (isConnectedSignal && isInternetReachable) = true →
      translateText isConnectedSignal isInternetReachable offlineFlagStored
          installed files text sourceLang targetLang = .online) ∧
    ((isOfflineModeEnabled offlineFlagStored
        || !(isConnectedSignal && isInternetReachable)) = true →
      translateText isConnectedSignal isInternetReachable offlineFlagStored
          installed files text sourceLang targetLang = .online →
      (isLanguageDownloaded installed sourceLang
        && isLanguageDownloaded installed targetLang) = false ∧
      (isConnectedSignal && isInternetReachable) = true) := by
  cases hcon : (isConnectedSignal && isInternetReachable) <;>
    cases hoff : isOfflineModeEnabled offlineFlagStored <;>
      cases hsd : isLanguageDownloaded installed sourceLang <;>
        cases htd : isLanguageDownloaded installed targetLang <;>
          simp_all [translateText]

/-- Witness for C2: offline mode preferred, device online, no packs
installed — the call falls through to the online path. -/
theorem C2_witness :
    translateText true true (some "true") [] (fun _ => none) "Hello" "en" "de"
      = .online :=
  (C2_routing_contract true true (some "true") [] (fun _ => none)
    "Hello" "en" "de").2.1 (by decide) (by decide) (by decide)

/-- Claim C3: offline lookup miss produces a tagged placeholder — with
both packs installed and readable, any text whose normalized form
matches no source-pack phrase yields the bracketed placeholder string
beginning with the literal marker `[Offline `, a value (not a thrown
exception) that is marked as a synthetic offline result rather than
being indistinguishable from a real translation. -/
theorem C3_offline_miss_placeholder (installed : List PackRecord)
    (files : String → Option PackData)
    (text sourceLanguage targetLanguage : String)
    (sourceData targetData : PackData)
    (hs : isLanguageDownloaded installed sourceLanguage = true)
    (ht : isLanguageDownloaded installed targetLanguage = true)
    (hfs : files sourceLanguage = some sourceData)
    (hft : files targetLanguage = some targetData)
    (hmiss : lookupPhrase (jsTrim (jsToLower text)) sourceData.phrases
      targetData.phrases = none) :
    translateTextOffline installed files text sourceLanguage targetLanguage
      = .str ("[Offline " ++ jsToUpper targetLanguage ++ " Translation] "
          ++ text) := by
  simp [translateTextOffline, hs, ht, hfs, hft, hmiss]

/-- Witness for C3: with the generated English and Spanish packs
installed, `"Good night"` has no phrase match and returns the tagged
placeholder. -/
theorem C3_witness :
    translateTextOffline
      [⟨"en", "English", "basic", [], 5, 0⟩, ⟨"es", "Spanish", "basic", [], 5, 0⟩]
      (fun c => if c = "en" then some ⟨generateMockPhrases "en"⟩
        else if c = "es" then some ⟨generateMockPhrases "es"⟩ else none)
      "Good night" "en" "es"
      = .str ("[Offline " ++ jsToUpper "es" ++ " Translation] " ++ "Good night") :=
  C3_offline_miss_placeholder
    [⟨"en", "English", "basic", [], 5, 0⟩, ⟨"es", "Spanish", "basic", [], 5, 0⟩]
    (fun c => if c = "en" then some ⟨generateMockPhrases "en"⟩
      else if c = "es" then some ⟨generateMockPhrases "es"⟩ else none)
    "Good night" "en" "es" ⟨generateMockPhrases "en"⟩ ⟨generateMockPhrases "es"⟩
    (by decide) (by decide) (by decide) (by decide) (by decide)

/-- Claim C7: missing-pack structured result — whenever the source or
the target pack (or both) is not installed, `translateTextOffline`
returns the structured message object carrying the human-readable
explanation and the informational flag `isOfflineMessage = true`: not an
exception and not a plain translated string, whichever pack is the
missing one. -/
theorem C7_missing_pack_structured (installed : List PackRecord)
    (files : String → Option PackData)
    (text sourceLanguage targetLanguage : String)
    (h : (isLanguageDownloaded installed sourceLanguage
      && isLanguageDownloaded installed targetLanguage) = false) :
    translateTextOffline installed files text sourceLanguage targetLanguage
      = .msg "Translation unavailable. Language packs not completely downloaded."
          sourceLanguage targetLanguage true := by
  simp only [translateTextOffline]
  rw [if_pos]
  rcases Bool.and_eq_false_iff.mp h with h1 | h1 <;> simp [h1]

/-- Witness for C7: no packs installed, `"de"` requested as target. -/
theorem C7_witness :
    translateTextOffline [] (fun _ => none) "Hello" "en" "de"
      = .msg "Translation unavailable. Language packs not completely downloaded."
          "en" "de" true :=
  C7_missing_pack_structured [] (fun _ => none) "Hello" "en" "de" (by decide)

/-- Claim C5: capacity precondition with atomicity — when the available
free space in MB is below the requested quality tier's size,
`downloadLanguagePack` fails with the insufficient-storage error
carrying the required MB and the floored available MB, and the
installed-pack collection is left unchanged. -/
theorem C5_insufficient_storage (freeSizeInBytes now : Nat)
    (installed : List PackRecord)
    (languageCode languageName quality : String)
    (requiredSize : Nat) (feats : List String)
    (hq : LANGUAGE_PACK_SIZES quality = some (requiredSize, feats))
    (hlt : (freeSizeInBytes : ℚ) / (1024 * 1024) < (requiredSize : ℚ)) :
    downloadLanguagePack freeSizeInBytes now installed languageCode
        languageName quality
      = .error (.insufficientStorage requiredSize
          (Rat.floor ((freeSizeInBytes : ℚ) / (1024 * 1024)))) ∧
    applyDownload freeSizeInBytes now installed languageCode languageName
        quality = installed := by
  have herr : downloadLanguagePack freeSizeInBytes now installed languageCode
      languageName quality
      = .error (.insufficientStorage requiredSize
          (Rat.floor ((freeSizeInBytes : ℚ) / (1024 * 1024)))) := by
    simp only [downloadLanguagePack, hq]
    rw [if_pos hlt]
  exact ⟨herr, by simp only [applyDownload, herr]⟩

/-- Witness for C5: a premium pack (30MB) requested with 20MB
(20971520 bytes) free fails with the capacity error and leaves the
empty installed collection empty. -/
theorem C5_witness :
    downloadLanguagePack 20971520 0 [] "fr" "French" "premium"
      = .error (.insufficientStorage 30
          (Rat.floor ((20971520 : ℚ) / (1024 * 1024)))) ∧
    applyDownload 20971520 0 [] "fr" "French" "premium" = [] :=
  C5_insufficient_storage 20971520 0 [] "fr" "French" "premium" 30
    ["text", "speech-recognition", "advanced-ocr", "context-aware"]
    (by decide) (by norm_num)

theorem countCode_filter_ne_le (st : List PackRecord) (c code : String) :
    countCode (st.filter (fun lang => lang.code != code)) c ≤ countCode st c := by
  simp only [countCode]
  exact List.Sublist.length_le (List.Sublist.filter _ (List.filter_sublist st))

theorem countCode_download_ok (freeSizeInBytes now : Nat)
    (installed updated : List PackRecord)
    (languageCode languageName quality : String)
    (hok : downloadLanguagePack freeSizeInBytes now installed languageCode
      languageName quality = .ok updated) (c : String)
    (h : countCode installed c ≤ 1) : countCode updated c ≤ 1 := by
  simp only [downloadLanguagePack] at hok
  cases hq : LANGUAGE_PACK_SIZES quality with
  | none => rw [hq] at hok; exact absurd hok (by simp)
  | some pr =>
      cases pr with
      | mk requiredSize feats =>
          rw [hq] at hok
          simp only at hok
          by_cases hlt : (freeSizeInBytes : ℚ) / (1024 * 1024) < (requiredSize : ℚ)
          · rw [if_pos hlt] at hok
            exact absurd hok (by simp)
          · rw [if_neg hlt] at hok
            have hup : (installed.filter (fun lang => lang.code != languageCode))
                ++ [(⟨languageCode, languageName, quality, feats, requiredSize,
                    now⟩ : PackRecord)] = updated := by
              exact Except.ok.inj hok
            subst hup
            simp only [countCode, List.filter_append, List.length_append]
            by_cases hc : c = languageCode
            · subst hc
              have hzero :
                  ((installed.filter (fun lang => lang.code != c)).filter
                    (fun lang => lang.code == c)).length = 0 := by
                rw [List.length_eq_zero]
                apply List.filter_eq_nil_iff.mpr
                intro a ha
                have := (List.mem_filter.mp ha).2
                simp only [bne_iff_ne, ne_eq, decide_eq_true_eq] at this ⊢
                simpa using this
              rw [hzero]
              simp
            · have hbeq :
                  ((⟨languageCode, languageName, quality, feats, requiredSize,
                      now⟩ : PackRecord).code == c) = false := by
                simp only [beq_eq_false_iff_ne, ne_eq]
                exact fun e => hc e.symm
              have hzero2 :
                  (List.filter (fun lang => lang.code == c)
                    [(⟨languageCode, languageName, quality, feats, requiredSize,
                        now⟩ : PackRecord)]).length = 0 := by
                simp [List.filter, hbeq]
              rw [hzero2]
              have := countCode_filter_ne_le installed c languageCode
              simp only [countCode] at this h ⊢
              omega

theorem countCode_applyPackOp (st : List PackRecord) (op : PackOp) (c : String)
    (h : countCode st c ≤ 1) : countCode (applyPackOp st op) c ≤ 1 := by
  cases op with
  | delete code =>
      simp only [applyPackOp, deleteLanguagePack]
      exact le_trans (countCode_filter_ne_le st c code) h
  | download freeSizeInBytes now code name quality =>
      simp only [applyPackOp, applyDownload]
      cases hdl : downloadLanguagePack freeSizeInBytes now st code name quality with
      | error e => exact h
      | ok updated => exact countCode_download_ok _ _ _ _ _ _ _ hdl c h

theorem countCode_foldl (ops : List PackOp) (st : List PackRecord)
    (h : ∀ c, countCode st c ≤ 1) :
    ∀ c, countCode (ops.foldl applyPackOp st) c ≤ 1 := by
  induction ops generalizing st with
  | nil => exact h
  | cons op rest ih =>
      exact ih (applyPackOp st op) (fun c => countCode_applyPackOp st op c (h c))

/-- Claim C6: pack uniqueness invariant — after any sequence of
download/delete operations starting from the fresh empty collection,
the installed-pack list holds at most one record per language code; and
any successful download of a code leaves exactly one record for that
code, the fresh one carrying the latest quality, features and size
(never an appended duplicate). -/
theorem C6_pack_uniqueness (ops : List PackOp) (c : String) :
    countCode (runPackOps ops) c ≤ 1 ∧
    (∀ (freeSizeInBytes now : Nat) (installed updated : List PackRecord)
        (languageName quality : String) (requiredSize : Nat)
        (feats : List String),
      LANGUAGE_PACK_SIZES quality = some (requiredSize, feats) →
      downloadLanguagePack freeSizeInBytes now installed c languageName
        quality = .ok updated →
      updated.filter (fun lang => lang.code == c)
        = [⟨c, languageName, quality, feats, requiredSize, now⟩]) := by
  constructor
  · exact countCode_foldl ops [] (fun c => by simp [countCode]) c
  · intro freeSizeInBytes now installed updated languageName quality
      requiredSize feats hq hok
    simp only [downloadLanguagePack, hq] at hok
    by_cases hlt : (freeSizeInBytes : ℚ) / (1024 * 1024) < (requiredSize : ℚ)
    · rw [if_pos hlt] at hok
      exact absurd hok (by simp)
    · rw [if_neg hlt] at hok
      have hup : (installed.filter (fun lang => lang.code != c))
          ++ [(⟨c, languageName, quality, feats, requiredSize,
              now⟩ : PackRecord)] = updated := Except.ok.inj hok
      subst hup
      rw [List.filter_append]
      have hnil : (installed.filter (fun lang => lang.code != c)).filter
          (fun lang => lang.code == c) = [] := by
        apply List.filter_eq_nil_iff.mpr
        intro a ha
        have := (List.mem_filter.mp ha).2
        simp only [bne_iff_ne, ne_eq, decide_eq_true_eq] at this ⊢
        simpa using this
      rw [hnil]
      simp [List.filter]

/-- Witness for C6: downloading Spanish twice — basic then premium —
yields a single record, and that record is the premium one. -/
theorem C6_witness :
    countCode (runPackOps [.download 10485760000 0 "es" "Spanish" "basic",
      .download 10485760000 1 "es" "Spanish" "premium"]) "es" ≤ 1 ∧
    ([⟨"es", "Spanish", "premium",
        ["text", "speech-recognition", "advanced-ocr", "context-aware"],
        30, 1⟩] : List PackRecord).filter (fun lang => lang.code == "es")
      = [⟨"es", "Spanish", "premium",
          ["text", "speech-recognition", "advanced-ocr", "context-aware"],
          30, 1⟩] := by
  constructor
  · exact (C6_pack_uniqueness [.download 10485760000 0 "es" "Spanish" "basic",
      .download 10485760000 1 "es" "Spanish" "premium"] "es").1
  · have hok : downloadLanguagePack 10485760000 1
        [(⟨"es", "Spanish", "basic", ["text-only", "common-phrases"],
          5, 0⟩ : PackRecord)] "es" "Spanish" "premium"
        = .ok [⟨"es", "Spanish", "premium",
            ["text", "speech-recognition", "advanced-ocr", "context-aware"],
            30, 1⟩] := by
      simp only [downloadLanguagePack,
        show LANGUAGE_PACK_SIZES "premium" = some (30,
          ["text", "speech-recognition", "advanced-ocr", "context-aware"])
          from by decide]
      norm_num
    have h := (C6_pack_uniqueness [] "es").2 10485760000 1
      [⟨"es", "Spanish", "basic", ["text-only", "common-phrases"], 5, 0⟩]
      [⟨"es", "Spanish", "premium",
        ["text", "speech-recognition", "advanced-ocr", "context-aware"],
        30, 1⟩] "Spanish" "premium" 30
      ["text", "speech-recognition", "advanced-ocr", "context-aware"]
      (by decide) hok
    exact h

/-- Claim C9, counterexample: with a falsy fetched value (`false`), the
first `fetchWithCache` call fetches and caches it, yet a second call for
the same key at the same instant — well inside the TTL window — invokes
the underlying fetch AGAIN, so the claim's "invokes the underlying fetch
exactly once" fails as stated. -/
theorem C9_counterexample :
    (fetchWithCache 0 [] "u" none 1000 (.ok (.bool false))).fetched = true ∧
    storeGet (fetchWithCache 0 [] "u" none 1000 (.ok (.bool false))).store
      ("translator_cache_" ++ "u") = some (.entry (.bool false) 0 1000) ∧
    (fetchWithCache 0
      (fetchWithCache 0 [] "u" none 1000 (.ok (.bool false))).store
      "u" none 1000 (.ok (.bool false))).fetched = true := by
  decide

theorem getCachedData_of_miss (now : Int) (s : Store) (key : String)
    (h : storeGet s (cachePrefixStr ++ key) = none) :
    getCachedData now s key = (none, s) := by
  simp only [getCachedData, h]

/-- Claim C9 as amended: provided the fetched value is truthy, two
`fetchWithCache` calls for the same key within the TTL window invoke
the underlying fetch exactly once — the first call fetches and caches,
the second returns the cached data without fetching; and whenever a
call does invoke the fetch and the fetch fails, the failure propagates
to the caller and the store is exactly the post-read store — nothing is
written to the cache for that key. -/
theorem C9_memoization_truthy_and_failure (now1 now2 : Int) (s : Store)
    (url : String) (ttl : Int) (data : JVal) (fetchRes2 : Except String JVal)
    (hmiss : storeGet s (cachePrefixStr ++ url) = none)
    (htruthy : data.truthy = true)
    (hwindow : now2 - now1 ≤ ttl) :
    (fetchWithCache now1 s url none ttl (.ok data)).fetched = true ∧
    (fetchWithCache now2 (fetchWithCache now1 s url none ttl (.ok data)).store
        url none ttl fetchRes2).fetched = false ∧
    (fetchWithCache now2 (fetchWithCache now1 s url none ttl (.ok data)).store
        url none ttl fetchRes2).result = .ok data ∧
    (∀ (now3 : Int) (s3 : Store) (url3 : String) (ttl3 : Int) (e : String),
      (fetchWithCache now3 s3 url3 none ttl3 (.error e)).fetched = true →
      (fetchWithCache now3 s3 url3 none ttl3 (.error e)).result = .error e ∧
      (fetchWithCache now3 s3 url3 none ttl3 (.error e)).store
        = (getCachedData now3 s3 url3).2) := by
  have hfirst : fetchWithCache now1 s url none ttl (.ok data)
      = ⟨.ok data, storeSet s (cachePrefixStr ++ url) (.entry data now1 ttl),
         true⟩ := by
    simp only [fetchWithCache, getCachedData_of_miss now1 s url hmiss, cacheData]
  have hsecond : getCachedData now2
      (storeSet s (cachePrefixStr ++ url) (.entry data now1 ttl)) url
      = (some data,
         storeSet s (cachePrefixStr ++ url) (.entry data now1 ttl)) := by
    simp only [getCachedData, storeGet_storeSet_self]
    rw [if_neg (by omega)]
  refine ⟨by rw [hfirst], ?_, ?_, ?_⟩
  · rw [hfirst]
    simp only [fetchWithCache, hsecond, htruthy, if_true]
  · rw [hfirst]
    simp only [fetchWithCache, hsecond, htruthy, if_true]
  · intro now3 s3 url3 ttl3 e hf
    simp only [fetchWithCache] at hf ⊢
    cases hc : (getCachedData now3 s3 url3).1 with
    | none => simp [hc]
    | some d =>
        by_cases ht : d.truthy
        · rw [hc] at hf
          simp [ht] at hf
        · simp [hc, ht]

/-- Witness for the amended C9: a truthy value `"v"` cached at time 0 is
served from cache at time 5 without a second fetch. -/
theorem C9_witness :
    (fetchWithCache 5
      (fetchWithCache 0 [] "u" none 100 (.ok (.str "v"))).store
      "u" none 100 (.ok JVal.null)).fetched = false :=
  (C9_memoization_truthy_and_failure 0 5 [] "u" 100 (.str "v") (.ok JVal.null)
    (by decide) (by decide) (by decide)).2.1

/-- Claim C10: falsy cached values defeat memoization — an unexpired
entry whose stored data is falsy (`null`, `false`, `0`, `""`) is
treated as a miss by `fetchWithCache` (the hit test is truthiness, not
presence), so the underlying fetch runs again and the cache entry is
re-written with the fresh data. -/
theorem C10_falsy_defeats_memoization (now timestamp ttl fetchTtl : Int)
    (s : Store) (url : String) (data data2 : JVal)
    (hstored : storeGet s (cachePrefixStr ++ url)
      = some (.entry data timestamp ttl))
    (hfresh : ¬ now - timestamp > ttl)
    (hfalsy : data.truthy = false) :
    (fetchWithCache now s url none fetchTtl (.ok data2)).fetched = true ∧
    (fetchWithCache now s url none fetchTtl (.ok data2)).result = .ok data2 ∧
    (fetchWithCache now s url none fetchTtl (.ok data2)).store
      = storeSet s (cachePrefixStr ++ url) (.entry data2 now fetchTtl) := by
  have hget : getCachedData now s url = (some data, s) := by
    simp only [getCachedData, hstored]
    rw [if_neg hfresh]
  refine ⟨?_, ?_, ?_⟩ <;>
    simp only [fetchWithCache, hget, hfalsy, Bool.false_eq_true, if_false,
      cacheData]

/-- Witness for C10: a cached `0` at time 0 is refetched at time 5 even
though its TTL of 100 has not elapsed, and the entry is overwritten. -/
theorem C10_witness :
    (fetchWithCache 5 [("translator_cache_u", CEnc.entry (JVal.num 0) 0 100)]
      "u" none 100 (.ok (.str "fresh"))).fetched = true :=
  (C10_falsy_defeats_memoization 5 0 100 100
    [("translator_cache_u", CEnc.entry (JVal.num 0) 0 100)] "u" (JVal.num 0)
    (JVal.str "fresh") (by decide) (by decide) (by decide)).1
